import Mathlib

/-!
# strings — paste identifier allocation and persistence layer

A shallow embedding of the core of `src/index.ts` (the `strings` pastebin):
the paste data model, the SQLite-backed store operations (insert under a
primary-key constraint, point lookup, delete), the random id generator,
slug validation, the allocator `getOrCreateId`, and the relevant request
handling flows (create, delete, GET routing).

Conventions:
* the `pastes` table is a `List Paste` in insertion order; the schema's
  `id TEXT PRIMARY KEY` makes a duplicate insert fail and leave the table
  unchanged;
* `Math.floor(Math.random() * chars.length)` draws are modelled as a stream
  `draw : Nat → Fin 58` of values in `[0, 58)`;
* JavaScript string falsiness (`if (customSlug)`, `x || null`) is modelled
  explicitly (`slugTruthy`, `jsOrNull`): `undefined` is `none` and the empty
  string is falsy;
* the unbounded `do { id = generateId() } while (idExists(id))` loop is
  modelled as the first attempt index whose candidate is free (`Nat.find`),
  defined exactly when some attempt succeeds.
-/

set_option maxHeartbeats 1000000

namespace Strings

/-- A row of the `pastes` table (`type Paste` in `src/index.ts`):
`id TEXT PRIMARY KEY, content TEXT NOT NULL, filename TEXT, language TEXT,
created_at INTEGER DEFAULT (unixepoch())`. -/
structure Paste where
  id : String
  content : String
  filename : Option String
  language : Option String
  created_at : Int
deriving DecidableEq, Repr

/-- The `pastes` table, rows in insertion order. -/
abbrev Store := List Paste

/-- The random-id alphabet of `generateId`:
`"abcdefghijklmnopqrstuvwxyzABCDEFGHJKLMNPQRSTUVWXYZ23456789"`. -/
def idChars : List Char :=
  "abcdefghijklmnopqrstuvwxyzABCDEFGHJKLMNPQRSTUVWXYZ23456789".data

theorem idChars_length : idChars.length = 58 := by decide

/-- `chars[j]` for a draw `j`: the `j`-th character of the alphabet. -/
def charAt (j : Fin 58) : Char :=
  idChars.get (Fin.cast idChars_length.symm j)

/-- `generateId(length)` of `src/index.ts`: builds a string of `len`
characters, each picked from `idChars` by one random draw
`Math.floor(Math.random() * chars.length)`.  The draw stream is explicit;
a call starting at stream position `start` consumes draws
`start, start+1, …, start+len-1`. -/
def generateId (draw : Nat → Fin 58) (start : Nat) (len : Nat) : String :=
  String.mk ((List.range len).map fun i => charAt (draw (start + i)))

/-- One character of the slug character class `[a-zA-Z0-9_-]`. -/
def isSlugChar (c : Char) : Bool :=
  ('a' ≤ c && c ≤ 'z') || ('A' ≤ c && c ≤ 'Z') ||
    ('0' ≤ c && c ≤ '9') || c == '_' || c == '-'

/-- `isValidSlug` of `src/index.ts`: the regex `^[a-zA-Z0-9_-]{1,64}$`. -/
def isValidSlug (slug : String) : Bool :=
  decide (1 ≤ slug.length) && decide (slug.length ≤ 64) && slug.data.all isSlugChar

/-- `idExists` of `src/index.ts`: `SELECT 1 FROM pastes WHERE id = ?`
returns a row iff some stored paste has this id. -/
def idExists (s : Store) (id : String) : Bool :=
  s.any fun p => decide (p.id = id)

/-- The store-level read (`db.query("SELECT * FROM pastes WHERE id = ?").get(id)`):
first row with this id, or `none`. -/
def getPaste (s : Store) (id : String) : Option Paste :=
  s.find? fun p => decide (p.id = id)

/-- Store-level failure of an `INSERT`: the primary-key constraint on `id`. -/
inductive StoreErr where
  | DuplicateId
deriving DecidableEq, Repr

/-- The store-level create
(`INSERT INTO pastes (id, content, filename, language) VALUES (?, ?, ?, ?)`
against the schema of `src/index.ts`): appends a new row with `created_at`
set by the schema default to the current server time `now`; a duplicate `id`
violates the primary-key constraint, the statement fails and the table is
unchanged. -/
def createPaste (s : Store) (id content : String)
    (filename language : Option String) (now : Int) :
    Except StoreErr Paste × Store :=
  if idExists s id then (.error .DuplicateId, s)
  else (.ok ⟨id, content, filename, language, now⟩,
    s ++ [⟨id, content, filename, language, now⟩])

/-- Response of the `DELETE /{id}` route of `src/index.ts`. -/
inductive DeleteResp where
  | deletedTrue
  | notFound404
deriving DecidableEq, Repr

/-- The `DELETE /{id}` route body of `src/index.ts` (after auth):
`db.run("DELETE FROM pastes WHERE id = ?")` removes every matching row and
reports the number of changed rows; on `changes === 0` the handler answers
404 `{error: "Paste not found"}`, otherwise `{deleted: true}`. -/
def handleDelete (s : Store) (id : String) : DeleteResp × Store :=
  ((if (s.countP fun p => decide (p.id = id)) = 0 then .notFound404
    else .deletedTrue),
   s.filter fun p => !(decide (p.id = id)))

/-- Allocation failures thrown by `getOrCreateId` of `src/index.ts`
(`"Invalid slug. …"` and `"Slug already taken"`). -/
inductive AllocErr where
  | InvalidSlug
  | SlugTaken
deriving DecidableEq, Repr

/-- JavaScript truthiness of the `customSlug?: string` parameter:
`undefined` and `""` are falsy. -/
def slugTruthy : Option String → Bool
  | none => false
  | some s => !(s == "")

/-- The candidate of the `k`-th iteration of the retry loop of
`getOrCreateId`: each iteration calls `generateId()` with the default
length 8, consuming the next 8 draws of the stream. -/
def randomAttempt (draw : Nat → Fin 58) (k : Nat) : String :=
  generateId draw (8 * k) 8

/-- The `do { id = generateId() } while (idExists(id))` loop of
`getOrCreateId`: returns the candidate of the first iteration whose
candidate is not in the store.  Defined exactly on the runs on which the
source's unbounded loop terminates. -/
def retryAlloc (gen : Nat → String) (s : Store)
    (h : ∃ k, idExists s (gen k) = false) : String :=
  gen (Nat.find h)

/-- `getOrCreateId(customSlug?)` of `src/index.ts`.  A truthy slug is
validated (`InvalidSlug`), checked for existence (`SlugTaken`) and returned
unchanged; otherwise the random retry loop runs.  `h` supplies the loop's
termination condition for the random branch. -/
def getOrCreateId (s : Store) (draw : Nat → Fin 58) (customSlug : Option String)
    (h : slugTruthy customSlug = false →
      ∃ k, idExists s (randomAttempt draw k) = false) :
    Except AllocErr String :=
  if ht : slugTruthy customSlug = true then
    let slug := customSlug.getD ""
    if !(isValidSlug slug) then .error .InvalidSlug
    else if idExists s slug then .error .SlugTaken
    else .ok slug
  else
    .ok (retryAlloc (randomAttempt draw) s (h (Bool.eq_false_iff.mpr ht)))

/-- Failure modes of the create flow (`POST /api/paste` / `POST /new`):
missing content, the two allocator errors, or a store-level duplicate. -/
inductive CreateErr where
  | ContentRequired
  | InvalidSlug
  | SlugTaken
  | DuplicateId
deriving DecidableEq, Repr

/-- The `x || null` coercion used at the `INSERT` call sites:
`undefined` and `""` become SQL `NULL`. -/
def jsOrNull : Option String → Option String
  | none => none
  | some s => if s == "" then none else some s

/-- JavaScript truthiness of an optional string. -/
def jsTruthy : Option String → Bool
  | none => false
  | some s => !(s == "")

/-- The extension-to-language table of `inferLanguage` in `src/index.ts`. -/
def langMap : List (String × String) :=
  [("js", "javascript"), ("ts", "typescript"), ("jsx", "javascript"),
   ("tsx", "typescript"), ("py", "python"), ("rb", "ruby"), ("rs", "rust"),
   ("go", "go"), ("java", "java"), ("c", "c"), ("cpp", "cpp"), ("h", "c"),
   ("hpp", "cpp"), ("cs", "csharp"), ("php", "php"), ("swift", "swift"),
   ("kt", "kotlin"), ("scala", "scala"), ("sh", "bash"), ("bash", "bash"),
   ("zsh", "bash"), ("fish", "fish"), ("ps1", "powershell"), ("sql", "sql"),
   ("html", "html"), ("css", "css"), ("scss", "scss"), ("sass", "sass"),
   ("less", "less"), ("json", "json"), ("yaml", "yaml"), ("yml", "yaml"),
   ("toml", "toml"), ("xml", "xml"), ("md", "markdown"),
   ("markdown", "markdown"), ("nix", "nix"), ("dockerfile", "dockerfile"),
   ("makefile", "makefile"), ("cmake", "cmake"), ("ex", "elixir"),
   ("exs", "elixir"), ("erl", "erlang"), ("hs", "haskell"), ("lua", "lua"),
   ("r", "r"), ("jl", "julia"), ("vim", "vim"), ("tf", "hcl")]

/-- `inferLanguage(filename?)` of `src/index.ts`: a falsy filename gives
`undefined`; otherwise the part after the last `.` is lowercased and looked
up in `langMap` (an empty extension is falsy and gives `undefined`). -/
def inferLanguage (filename : Option String) : Option String :=
  match filename with
  | none => none
  | some f =>
    if f == "" then none
    else
      let ext := ((f.splitOn ".").getLastD "").toLower
      if ext == "" then none
      else (langMap.find? fun kv => kv.1 == ext).map Prod.snd

/-- The create flow of the `POST /api/paste` route of `src/index.ts`
(after auth and body parsing): reject falsy content, allocate an id via
`getOrCreateId` (errors answer 400/409 without touching the store), infer
the language from the filename when no language was given, then run the
`INSERT`.  Returns the chosen id and the resulting store. -/
def createFlow (s : Store) (draw : Nat → Fin 58) (content : String)
    (filename language customSlug : Option String) (now : Int)
    (h : slugTruthy customSlug = false →
      ∃ k, idExists s (randomAttempt draw k) = false) :
    Except CreateErr String × Store :=
  if content == "" then (.error .ContentRequired, s)
  else
    match getOrCreateId s draw customSlug h with
    | .error .InvalidSlug => (.error .InvalidSlug, s)
    | .error .SlugTaken => (.error .SlugTaken, s)
    | .ok id =>
      match createPaste s id content (jsOrNull filename)
        (jsOrNull (if !(jsTruthy language) && jsTruthy filename then
          inferLanguage filename else language)) now with
      | (.error .DuplicateId, _) => (.error .DuplicateId, s)
      | (.ok p, s') => (.ok p.id, s')

/-- The JS regex `^\/[^/]+$` of the `DELETE` and HTML-view routes:
a `/` followed by one or more non-`/` characters. -/
def isSingleSegment (path : String) : Bool :=
  match path.data with
  | '/' :: rest => !rest.isEmpty && (rest.all fun c => !(c == '/'))
  | _ => false

/-- `path.slice(1)` — the id of a single-segment path. -/
def singleSegmentId (path : String) : String :=
  String.mk (path.data.drop 1)

/-- The JS regex `^\/[^/]+\/raw$` of the raw route: a `/`, one or more
non-`/` characters, then `/raw`. -/
def isRawPath (path : String) : Bool :=
  match path.data with
  | '/' :: rest =>
    decide (5 ≤ rest.length) &&
      ((rest.take (rest.length - 4)).all fun c => !(c == '/')) &&
      (rest.drop (rest.length - 4) == ['/', 'r', 'a', 'w'])
  | _ => false

/-- `path.slice(1, -4)` — the id of a `/{id}/raw` path. -/
def rawPathId (path : String) : String :=
  String.mk ((path.data.drop 1).take (path.data.length - 5))

/-- Responses of the `GET` routes of `src/index.ts`, keeping the data a
claim can observe (which page, which paste, which raw content). -/
inductive GetResp where
  | newFormPage
  | unauthorized401
  | homePage
  | pasteHtml (p : Paste)
  | rawText (content : String)
  | notFoundHtml
  | notFoundPlain
deriving DecidableEq, Repr

/-- The `GET` dispatch of `handleRequest` in `src/index.ts`, in route
order: `/new` (form, auth required), `/{id}/raw`, `/{id}` (HTML view, with
the hardcoded 404 for ids `new` and `api`), `/` (home), fallback 404. -/
def handleGet (s : Store) (authed : Bool) (path : String) : GetResp :=
  if path == "/new" then
    if authed then .newFormPage else .unauthorized401
  else if isRawPath path then
    match getPaste s (rawPathId path) with
    | none => .notFoundPlain
    | some p => .rawText p.content
  else if isSingleSegment path then
    if singleSegmentId path == "new" || singleSegmentId path == "api" then
      .notFoundHtml
    else
      match getPaste s (singleSegmentId path) with
      | none => .notFoundHtml
      | some p => .pasteHtml p
  else if path == "/" then .homePage
  else .notFoundHtml

/-- Every stored id matches `^[a-zA-Z0-9_-]{1,64}$`. -/
def storeValid (s : Store) : Bool :=
  s.all fun p => isValidSlug p.id

/-- The ids of the table are pairwise distinct (the primary-key invariant). -/
def uniqueIds (s : Store) : Prop :=
  (s.map Paste.id).Nodup

instance (s : Store) : Decidable (uniqueIds s) := by
  unfold uniqueIds; infer_instance

/-- On the empty store the first random attempt is always free. -/
def emptyStoreRetry (draw : Nat → Fin 58) (cs : Option String) :
    slugTruthy cs = false → ∃ k, idExists ([] : Store) (randomAttempt draw k) = false :=
  fun _ => ⟨0, rfl⟩

/-- Vacuous loop-termination witness: a truthy slug never reaches the
random branch. -/
def vacuousRetry {s : Store} {draw : Nat → Fin 58} {cs : Option String}
    (ht : slugTruthy cs = true) :
    slugTruthy cs = false → ∃ k, idExists s (randomAttempt draw k) = false :=
  fun hf => absurd ht (ne_true_of_eq_false hf)

/-! ## Basic lemmas about the store operations -/

theorem idExists_iff {s : Store} {id : String} :
    idExists s id = true ↔ ∃ p ∈ s, p.id = id := by
  simp [idExists, List.any_eq_true]

theorem idExists_false_iff {s : Store} {id : String} :
    idExists s id = false ↔ ∀ p ∈ s, p.id ≠ id := by
  simp [idExists, List.any_eq_false]

theorem getPaste_eq_none {s : Store} {id : String} (h : idExists s id = false) :
    getPaste s id = none := by
  rw [getPaste, List.find?_eq_none]
  intro p hp
  simpa using idExists_false_iff.mp h p hp

theorem getPaste_append_left {s t : Store} {id : String} {p : Paste}
    (h : getPaste s id = some p) : getPaste (s ++ t) id = some p := by
  unfold getPaste at h ⊢
  rw [List.find?_append, h]
  rfl

theorem getPaste_snoc_self {s : Store} {id : String} {p : Paste}
    (hfree : idExists s id = false) (hpid : p.id = id) :
    getPaste (s ++ [p]) id = some p := by
  have h1 : getPaste s id = none := getPaste_eq_none hfree
  unfold getPaste at h1 ⊢
  rw [List.find?_append, h1]
  simp [List.find?, hpid]

theorem getPaste_filter_ne {s : Store} {id id2 : String} (hne : id2 ≠ id) :
    getPaste (s.filter fun p => !(decide (p.id = id2))) id = getPaste s id := by
  induction s with
  | nil => rfl
  | cons p t ih =>
    rw [List.filter_cons]
    by_cases h2 : p.id = id2
    · rw [if_neg (by simp [h2])]
      have hpid : p.id ≠ id := fun he => hne (by rw [← h2, he])
      unfold getPaste at ih ⊢
      rw [List.find?_cons_of_neg t (by simpa using hpid), ih]
    · rw [if_pos (by simp [h2])]
      unfold getPaste at ih ⊢
      by_cases hpd : p.id = id
      · rw [List.find?_cons_of_pos _ (by simpa using hpd),
          List.find?_cons_of_pos t (by simpa using hpd)]
      · rw [List.find?_cons_of_neg _ (by simpa using hpd),
          List.find?_cons_of_neg t (by simpa using hpd), ih]

theorem countP_eq_zero_of_idExists_false {s : Store} {id : String}
    (h : idExists s id = false) :
    (s.countP fun p => decide (p.id = id)) = 0 := by
  rw [List.countP_eq_zero]
  intro p hp
  simpa using idExists_false_iff.mp h p hp

theorem countP_pos_of_idExists {s : Store} {id : String}
    (h : idExists s id = true) :
    0 < s.countP fun p => decide (p.id = id) := by
  rw [List.countP_pos_iff]
  obtain ⟨p, hp, he⟩ := idExists_iff.mp h
  exact ⟨p, hp, by simpa using he⟩

theorem countP_le_one_of_unique {s : Store} (hu : uniqueIds s) (id : String) :
    (s.countP fun p => decide (p.id = id)) ≤ 1 := by
  induction s with
  | nil => simp
  | cons p t ih =>
    rw [uniqueIds, List.map_cons, List.nodup_cons] at hu
    obtain ⟨hnm, hnd⟩ := hu
    by_cases hpe : p.id = id
    · have ht0 : (t.countP fun q => decide (q.id = id)) = 0 := by
        rw [List.countP_eq_zero]
        intro q hq
        simp only [decide_eq_true_eq]
        intro hqe
        exact hnm (by
          have : q.id = p.id := by rw [hqe, hpe]
          exact this ▸ List.mem_map_of_mem Paste.id hq)
      simp [List.countP_cons, hpe, ht0]
    · simp only [List.countP_cons, hpe, decide_eq_true_eq, if_neg,
        decide_eq_false_iff_not, Nat.add_zero]
      simpa [hpe] using ih hnd

/-! ## Lemmas about the generated ids and the allocator -/

theorem generateId_length (draw : Nat → Fin 58) (start len : Nat) :
    (generateId draw start len).length = len := by
  simp [generateId, String.length]

theorem charAt_mem (j : Fin 58) : charAt j ∈ idChars :=
  List.get_mem _ _ _

theorem generateId_chars {draw : Nat → Fin 58} {start len : Nat} :
    ∀ c ∈ (generateId draw start len).data, c ∈ idChars := by
  intro c hc
  simp only [generateId, List.mem_map, List.mem_range] at hc
  obtain ⟨i, _, rfl⟩ := hc
  exact charAt_mem _

theorem generateId_one (draw : Nat → Fin 58) (k : Nat) :
    generateId draw k 1 = String.mk [charAt (draw k)] := rfl

theorem idChars_slugChars : ∀ c ∈ idChars, isSlugChar c = true := by decide

theorem isValidSlug_generateId (draw : Nat → Fin 58) (start : Nat) :
    isValidSlug (generateId draw start 8) = true := by
  have hlen := generateId_length draw start 8
  rw [isValidSlug, hlen]
  simp only [decide_eq_true_eq, Bool.and_eq_true, List.all_eq_true]
  refine ⟨⟨by omega, by omega⟩, ?_⟩
  intro c hc
  exact idChars_slugChars c (generateId_chars c hc)

theorem valid_slug_ne_empty {slug : String} (hv : isValidSlug slug = true) :
    slug ≠ "" := by
  intro he
  subst he
  simp [isValidSlug] at hv

theorem slugTruthy_of_valid {slug : String} (hv : isValidSlug slug = true) :
    slugTruthy (some slug) = true := by
  have hne := valid_slug_ne_empty hv
  simp [slugTruthy, hne]

theorem getOrCreateId_truthy {s : Store} {draw : Nat → Fin 58}
    {customSlug : Option String} {h} (ht : slugTruthy customSlug = true) :
    getOrCreateId s draw customSlug h =
      (if !(isValidSlug (customSlug.getD "")) then .error .InvalidSlug
       else if idExists s (customSlug.getD "") then .error .SlugTaken
       else .ok (customSlug.getD "")) := by
  rw [getOrCreateId, dif_pos ht]

theorem getOrCreateId_falsy {s : Store} {draw : Nat → Fin 58}
    {customSlug : Option String} {h} (hf : slugTruthy customSlug = false) :
    getOrCreateId s draw customSlug h =
      .ok (retryAlloc (randomAttempt draw) s (h hf)) := by
  rw [getOrCreateId, dif_neg (ne_true_of_eq_false hf)]

theorem retryAlloc_free (gen : Nat → String) (s : Store)
    (h : ∃ k, idExists s (gen k) = false) :
    idExists s (retryAlloc gen s h) = false := by
  unfold retryAlloc
  exact Nat.find_spec h

theorem retryAlloc_zero (gen : Nat → String) (s : Store)
    (h : ∃ k, idExists s (gen k) = false)
    (h0 : idExists s (gen 0) = false) :
    retryAlloc gen s h = gen 0 := by
  unfold retryAlloc
  rw [(Nat.find_eq_zero h).mpr h0]

/-! ## Claims -/

/-- C1: when a paste with identifier `id` already exists, inserting another
row with the same id fails with `DuplicateId` through the primary-key
constraint; the table (hence the existing row) is untouched and, under the
primary-key invariant, exactly one row with that id exists afterward.
Moreover two creates of the same id never both succeed: after a successful
create, any second create of the same id fails with `DuplicateId`, leaves
the store unchanged, and exactly one row with that id remains. -/
theorem c1_duplicate_create_rejected (s : Store) (id content content' : String)
    (f l f' l' : Option String) (now now' : Int) (hu : uniqueIds s) :
    (idExists s id = true →
      createPaste s id content f l now = (.error .DuplicateId, s) ∧
      getPaste (createPaste s id content f l now).2 id = getPaste s id ∧
      ((createPaste s id content f l now).2.countP
        fun p => decide (p.id = id)) = 1) ∧
    (∀ p1 s1, createPaste s id content f l now = (.ok p1, s1) →
      createPaste s1 id content' f' l' now' = (.error .DuplicateId, s1) ∧
      (s1.countP fun p => decide (p.id = id)) = 1) := by
  constructor
  · intro hex
    have hcp : createPaste s id content f l now = (.error .DuplicateId, s) := by
      rw [createPaste, if_pos hex]
    refine ⟨hcp, by rw [hcp], ?_⟩
    rw [hcp]
    show (s.countP fun p => decide (p.id = id)) = 1
    have h1 := countP_pos_of_idExists hex
    have h2 := countP_le_one_of_unique hu id
    omega
  · intro p1 s1 hok
    by_cases hex : idExists s id = true
    · rw [createPaste, if_pos hex] at hok
      exact absurd (congrArg Prod.fst hok) (by simp)
    · have hexf : idExists s id = false := by simpa using hex
      rw [createPaste, if_neg (by simp [hexf])] at hok
      have hs1 : s ++ [(⟨id, content, f, l, now⟩ : Paste)] = s1 :=
        congrArg Prod.snd hok
      subst hs1
      have hex1 : idExists (s ++ [(⟨id, content, f, l, now⟩ : Paste)]) id = true := by
        rw [idExists_iff]
        exact ⟨⟨id, content, f, l, now⟩, by simp, rfl⟩
      refine ⟨by rw [createPaste, if_pos hex1], ?_⟩
      rw [List.countP_append, countP_eq_zero_of_idExists_false hexf]
      simp

/-- C1 witness: concrete duplicate insert against a one-row store. -/
theorem c1_duplicate_create_rejected_witness :
    createPaste ([⟨"dup", "c", none, none, 0⟩] : Store) "dup" "d" none none 5 =
      (.error .DuplicateId, ([⟨"dup", "c", none, none, 0⟩] : Store)) ∧
    ((createPaste ([⟨"dup", "c", none, none, 0⟩] : Store) "dup" "d" none none 5).2.countP
      fun p => decide (p.id = "dup")) = 1 := by
  have h := c1_duplicate_create_rejected ([⟨"dup", "c", none, none, 0⟩] : Store)
    "dup" "d" "e" none none none none 5 6 (by decide)
  exact ⟨(h.1 (by decide)).1, (h.1 (by decide)).2.2⟩

/-- C2 counterexample: deleting a missing id from the empty store does not
answer `{deleted: false}` — the handler returns the 404 not-found error
response. -/
theorem c2_delete_missing_counterexample :
    handleDelete ([] : Store) "missing" = (.notFound404, []) ∧
    DeleteResp.notFound404 ≠ DeleteResp.deletedTrue :=
  ⟨rfl, by decide⟩

/-- C2 (amended): for a missing id the delete route leaves the store
unchanged and answers the 404 error `{error: "Paste not found"}` (not
`{deleted: false}`); for a present id it removes the row and answers
`{deleted: true}`, and a second delete of the same id then gets the 404
error. -/
theorem c2_delete_behavior (s : Store) (id : String) :
    (idExists s id = false → handleDelete s id = (.notFound404, s)) ∧
    (idExists s id = true →
      (handleDelete s id).1 = .deletedTrue ∧
      idExists (handleDelete s id).2 id = false ∧
      (handleDelete (handleDelete s id).2 id).1 = .notFound404) := by
  have hsnd : (handleDelete s id).2 = s.filter fun p => !(decide (p.id = id)) := rfl
  constructor
  · intro hf
    have hc0 : (s.countP fun p => decide (p.id = id)) = 0 :=
      countP_eq_zero_of_idExists_false hf
    have hfil : (s.filter fun p => !(decide (p.id = id))) = s := by
      rw [List.filter_eq_self]
      intro p hp
      simpa using idExists_false_iff.mp hf p hp
    rw [handleDelete]
    simp only [hc0, hfil, if_pos]
  · intro ht
    have hcpos := countP_pos_of_idExists ht
    have hfe : idExists (handleDelete s id).2 id = false := by
      rw [hsnd, idExists_false_iff]
      intro p hp
      have := (List.mem_filter.mp hp).2
      simpa using this
    refine ⟨?_, hfe, ?_⟩
    · show (if (s.countP fun p => decide (p.id = id)) = 0 then
          DeleteResp.notFound404 else .deletedTrue) = .deletedTrue
      rw [if_neg (Nat.pos_iff_ne_zero.mp hcpos)]
    · show (if ((handleDelete s id).2.countP fun p => decide (p.id = id)) = 0 then
          DeleteResp.notFound404 else .deletedTrue) = .notFound404
      rw [if_pos (countP_eq_zero_of_idExists_false hfe)]

/-- C2 witness: concrete delete of a missing id and of a present id. -/
theorem c2_delete_behavior_witness :
    handleDelete ([] : Store) "a" = (.notFound404, []) ∧
    ((handleDelete ([⟨"a", "c", none, none, 0⟩] : Store) "a").1 = .deletedTrue ∧
      idExists (handleDelete ([⟨"a", "c", none, none, 0⟩] : Store) "a").2 "a" = false ∧
      (handleDelete (handleDelete ([⟨"a", "c", none, none, 0⟩] : Store) "a").2 "a").1 =
        .notFound404) :=
  ⟨(c2_delete_behavior [] "a").1 (by decide),
   (c2_delete_behavior ([⟨"a", "c", none, none, 0⟩] : Store) "a").2 (by decide)⟩

/-- C3 counterexample: a run of draws can produce a candidate made of the
visually ambiguous `l`, which the alphabet of `generateId` does contain. -/
theorem c3_ambiguous_l_counterexample :
    generateId (fun _ => (⟨11, by decide⟩ : Fin 58)) 0 8 = "llllllll" ∧
    'l' ∈ idChars :=
  ⟨by decide, by decide⟩

/-- C3 (amended): every candidate has length exactly 8 and all its
characters come from the 58-character alphabet; the alphabet contains the
digits 2–9 and mixed-case letters and excludes `0`, `O`, `1` and `I`, but
it does contain the visually ambiguous lowercase `l`. -/
theorem c3_generated_id_alphabet (draw : Nat → Fin 58) (start : Nat) :
    (generateId draw start 8).length = 8 ∧
    (∀ c ∈ (generateId draw start 8).data, c ∈ idChars) ∧
    idChars.length = 58 ∧
    ('0' ∉ idChars ∧ 'O' ∉ idChars ∧ '1' ∉ idChars ∧ 'I' ∉ idChars) ∧
    'l' ∈ idChars ∧
    (∀ c ∈ "23456789".data, c ∈ idChars) :=
  ⟨generateId_length draw start 8, generateId_chars, by decide, by decide,
   by decide, by decide⟩

/-- C3 witness: the all-`a` candidate at concrete draws. -/
theorem c3_generated_id_alphabet_witness :
    'a' ∈ (generateId (fun _ => (⟨0, by decide⟩ : Fin 58)) 0 8).data ∧
    'a' ∈ idChars ∧ '2' ∈ idChars :=
  ⟨by decide,
   (c3_generated_id_alphabet (fun _ => (⟨0, by decide⟩ : Fin 58)) 0).2.1 'a' (by decide),
   (c3_generated_id_alphabet (fun _ => (⟨0, by decide⟩ : Fin 58)) 0).2.2.2.2.2 '2'
     (by decide)⟩

/-- C4: a valid caller-supplied slug that is not in the store is accepted
and returned unchanged as the chosen id. -/
theorem c4_valid_free_slug_returned (s : Store) (draw : Nat → Fin 58)
    (slug : String) (h) (hv : isValidSlug slug = true)
    (hfree : idExists s slug = false) :
    getOrCreateId s draw (some slug) h = .ok slug := by
  rw [getOrCreateId_truthy (slugTruthy_of_valid hv)]
  simp [hv, hfree]

/-- C4 witness: a concrete free slug on the empty store. -/
theorem c4_valid_free_slug_returned_witness :
    getOrCreateId ([] : Store) (fun _ => (⟨0, by decide⟩ : Fin 58)) (some "my-slug")
      (emptyStoreRetry _ _) = .ok "my-slug" :=
  c4_valid_free_slug_returned [] (fun _ => (⟨0, by decide⟩ : Fin 58)) "my-slug"
    (emptyStoreRetry _ _) (by decide) (by decide)

/-- C5 counterexample: the empty string violates the slug pattern, yet the
allocator does not fail with `InvalidSlug` — the empty string is falsy in
JavaScript, so `getOrCreateId("")` takes the random branch and returns a
random candidate. -/
theorem c5_empty_slug_counterexample :
    isValidSlug "" = false ∧
    getOrCreateId ([] : Store) (fun _ => (⟨0, by decide⟩ : Fin 58)) (some "")
      (emptyStoreRetry _ _) = .ok "aaaaaaaa" := by
  refine ⟨by decide, ?_⟩
  rw [getOrCreateId_falsy (by decide), retryAlloc_zero _ _ _ (by decide)]
  exact congrArg Except.ok (by decide)

/-- C5 (amended): every nonempty string violating the pattern makes the
allocator fail with `InvalidSlug`, and the create flow then answers the
error with the store unchanged; the empty string, however, is falsy and is
treated as "no slug given", so a random id is generated instead of a
failure. -/
theorem c5_invalid_slug_rejected (s : Store) (draw : Nat → Fin 58)
    (slug content : String) (filename language : Option String) (now : Int)
    (h h') (hne : slug ≠ "") (hinv : isValidSlug slug = false)
    (hc : content ≠ "") :
    getOrCreateId s draw (some slug) h = .error .InvalidSlug ∧
    createFlow s draw content filename language (some slug) now h' =
      (.error .InvalidSlug, s) := by
  have ht : slugTruthy (some slug) = true := by simp [slugTruthy, hne]
  have halloc : getOrCreateId s draw (some slug) h = .error .InvalidSlug := by
    rw [getOrCreateId_truthy ht]
    simp [hinv]
  have halloc' : getOrCreateId s draw (some slug) h' = .error .InvalidSlug := by
    rw [getOrCreateId_truthy ht]
    simp [hinv]
  refine ⟨halloc, ?_⟩
  rw [createFlow, if_neg (by simp [hc]), halloc']

/-- C5 witness: a slug containing a space, on the empty store. -/
theorem c5_invalid_slug_rejected_witness :
    getOrCreateId ([] : Store) (fun _ => (⟨0, by decide⟩ : Fin 58)) (some "bad slug")
      (emptyStoreRetry _ _) = .error .InvalidSlug ∧
    createFlow ([] : Store) (fun _ => (⟨0, by decide⟩ : Fin 58)) "hello"
      none none (some "bad slug") 0 (emptyStoreRetry _ _) =
      (.error .InvalidSlug, ([] : Store)) :=
  c5_invalid_slug_rejected [] (fun _ => (⟨0, by decide⟩ : Fin 58)) "bad slug"
    "hello" none none 0 (emptyStoreRetry _ _) (emptyStoreRetry _ _)
    (by decide) (by decide) (by decide)

/-- C6: a valid slug that already exists makes the allocator fail with
`SlugTaken`, and the create flow answers the conflict with the store
unchanged.  The allocator itself only reads the store (through `idExists`)
and returns an id or an error — it performs no write. -/
theorem c6_taken_slug_conflict (s : Store) (draw : Nat → Fin 58)
    (slug content : String) (filename language : Option String) (now : Int)
    (h h') (hv : isValidSlug slug = true) (hex : idExists s slug = true)
    (hc : content ≠ "") :
    getOrCreateId s draw (some slug) h = .error .SlugTaken ∧
    createFlow s draw content filename language (some slug) now h' =
      (.error .SlugTaken, s) := by
  have ht := slugTruthy_of_valid hv
  have halloc : getOrCreateId s draw (some slug) h = .error .SlugTaken := by
    rw [getOrCreateId_truthy ht]
    simp [hv, hex]
  have halloc' : getOrCreateId s draw (some slug) h' = .error .SlugTaken := by
    rw [getOrCreateId_truthy ht]
    simp [hv, hex]
  refine ⟨halloc, ?_⟩
  rw [createFlow, if_neg (by simp [hc]), halloc']

/-- C6 witness: the slug `"taken"` against a store that already holds it. -/
theorem c6_taken_slug_conflict_witness :
    getOrCreateId ([⟨"taken", "c", none, none, 0⟩] : Store)
      (fun _ => (⟨0, by decide⟩ : Fin 58)) (some "taken")
      (vacuousRetry (by decide)) = .error .SlugTaken ∧
    createFlow ([⟨"taken", "c", none, none, 0⟩] : Store)
      (fun _ => (⟨0, by decide⟩ : Fin 58)) "hello" none none (some "taken") 0
      (vacuousRetry (by decide)) =
      (.error .SlugTaken, ([⟨"taken", "c", none, none, 0⟩] : Store)) :=
  c6_taken_slug_conflict ([⟨"taken", "c", none, none, 0⟩] : Store)
    (fun _ => (⟨0, by decide⟩ : Fin 58)) "taken" "hello" none none 0
    (vacuousRetry (by decide)) (vacuousRetry (by decide))
    (by decide) (by decide) (by decide)

/-- C7: round-trip — creating a fresh id and reading it back returns a
paste whose `content`, `filename` and `language` are exactly the values
given at creation and whose `created_at` is the server time of the insert.
The row is set once and never mutated afterward: any later create (of any
id, succeeding or not) and any delete of a different id leave the stored
row intact. -/
theorem c7_create_get_roundtrip (s : Store) (id content : String)
    (filename language : Option String) (now : Int)
    (hfree : idExists s id = false) :
    ∃ s',
      createPaste s id content filename language now =
        (.ok ⟨id, content, filename, language, now⟩, s') ∧
      getPaste s' id = some ⟨id, content, filename, language, now⟩ ∧
      (∀ id2 c2 f2 l2 t2, getPaste (createPaste s' id2 c2 f2 l2 t2).2 id =
        some ⟨id, content, filename, language, now⟩) ∧
      (∀ id2, id2 ≠ id → getPaste (handleDelete s' id2).2 id =
        some ⟨id, content, filename, language, now⟩) := by
  have hget : getPaste (s ++ [(⟨id, content, filename, language, now⟩ : Paste)]) id =
      some ⟨id, content, filename, language, now⟩ :=
    getPaste_snoc_self hfree rfl
  refine ⟨s ++ [⟨id, content, filename, language, now⟩], ?_, hget, ?_, ?_⟩
  · rw [createPaste, if_neg (by simp [hfree])]
  · intro id2 c2 f2 l2 t2
    by_cases hex2 : idExists (s ++ [(⟨id, content, filename, language, now⟩ : Paste)]) id2 = true
    · rw [createPaste, if_pos hex2]
      exact hget
    · rw [createPaste, if_neg hex2]
      exact getPaste_append_left hget
  · intro id2 hne
    have hd : (handleDelete (s ++ [(⟨id, content, filename, language, now⟩ : Paste)]) id2).2 =
        (s ++ [(⟨id, content, filename, language, now⟩ : Paste)]).filter
          fun p => !(decide (p.id = id2)) := rfl
    rw [hd, getPaste_filter_ne hne, hget]

/-- C7 witness: a concrete create-then-get on the empty store. -/
theorem c7_create_get_roundtrip_witness :
    ∃ s',
      createPaste ([] : Store) "x" "hello" (some "f.py") (some "python") 42 =
        (.ok ⟨"x", "hello", some "f.py", some "python", 42⟩, s') ∧
      getPaste s' "x" = some ⟨"x", "hello", some "f.py", some "python", 42⟩ ∧
      (∀ id2 c2 f2 l2 t2, getPaste (createPaste s' id2 c2 f2 l2 t2).2 "x" =
        some ⟨"x", "hello", some "f.py", some "python", 42⟩) ∧
      (∀ id2, id2 ≠ "x" → getPaste (handleDelete s' id2).2 "x" =
        some ⟨"x", "hello", some "f.py", some "python", 42⟩) :=
  c7_create_get_roundtrip [] "x" "hello" (some "f.py") (some "python") 42 (by decide)

/-- The 57-row store of the contrived single-character scenario: every
single-character id over the alphabet except the last character `'9'`. -/
def seedStore57 : Store :=
  (idChars.take 57).map fun ch => ⟨String.mk [ch], "x", none, none, 0⟩

/-- C8: the collision-retry loop returns an id absent from the store
whenever some attempt produces a free candidate; in the contrived
single-character scenario (candidates of length 1), if some alphabet
character's id is free and the draw stream eventually produces every
alphabet index, the loop terminates with a free id — and when the store
holds every single-character id but that one, the result is exactly the one
remaining free id. -/
theorem c8_retry_loop_terminates (s : Store) (draw : Nat → Fin 58) (j : Fin 58)
    (hsurj : ∀ j' : Fin 58, ∃ i, draw i = j')
    (hfree : idExists s (String.mk [charAt j]) = false) :
    (∀ (gen : Nat → String) (hterm : ∃ k, idExists s (gen k) = false),
      idExists s (retryAlloc gen s hterm) = false) ∧
    ∃ hterm : ∃ k, idExists s (generateId draw k 1) = false,
      idExists s (retryAlloc (fun k => generateId draw k 1) s hterm) = false ∧
      ((∀ j' : Fin 58, j' ≠ j → idExists s (String.mk [charAt j']) = true) →
        retryAlloc (fun k => generateId draw k 1) s hterm =
          String.mk [charAt j]) := by
  refine ⟨fun gen hterm => retryAlloc_free gen s hterm, ?_⟩
  obtain ⟨i, hi⟩ := hsurj j
  have hgen : generateId draw i 1 = String.mk [charAt j] := by
    rw [generateId_one, hi]
  have hterm : ∃ k, idExists s (generateId draw k 1) = false :=
    ⟨i, by rw [hgen]; exact hfree⟩
  refine ⟨hterm, retryAlloc_free _ s hterm, ?_⟩
  intro hall
  have hres := retryAlloc_free (fun k => generateId draw k 1) s hterm
  have hform : retryAlloc (fun k => generateId draw k 1) s hterm =
      String.mk [charAt (draw (Nat.find hterm))] := by
    unfold retryAlloc
    exact generateId_one draw (Nat.find hterm)
  rw [hform] at hres ⊢
  by_cases hdj : draw (Nat.find hterm) = j
  · rw [hdj]
  · rw [hall (draw (Nat.find hterm)) hdj] at hres
    exact absurd hres (by simp)

/-- C8 witness: the 57-of-58 seeded store, a draw stream cycling through
the whole alphabet, and the one remaining free id `"9"`. -/
theorem c8_retry_loop_terminates_witness :
    (∀ (gen : Nat → String) (hterm : ∃ k, idExists seedStore57 (gen k) = false),
      idExists seedStore57 (retryAlloc gen seedStore57 hterm) = false) ∧
    ∃ hterm : ∃ k, idExists seedStore57
        (generateId (fun i => ⟨i % 58, Nat.mod_lt i (by decide)⟩) k 1) = false,
      idExists seedStore57
        (retryAlloc (fun k => generateId (fun i => ⟨i % 58, Nat.mod_lt i (by decide)⟩) k 1)
          seedStore57 hterm) = false ∧
      ((∀ j' : Fin 58, j' ≠ (⟨57, by decide⟩ : Fin 58) →
          idExists seedStore57 (String.mk [charAt j']) = true) →
        retryAlloc (fun k => generateId (fun i => ⟨i % 58, Nat.mod_lt i (by decide)⟩) k 1)
          seedStore57 hterm = String.mk [charAt ⟨57, by decide⟩]) :=
  c8_retry_loop_terminates seedStore57
    (fun i => ⟨i % 58, Nat.mod_lt i (by decide)⟩) (⟨57, by decide⟩ : Fin 58)
    (fun j' => ⟨j'.val, Fin.ext (by simp [Nat.mod_eq_of_lt j'.isLt])⟩)
    (by decide)

theorem getOrCreateId_ok_valid {s : Store} {draw : Nat → Fin 58}
    {cs : Option String} {h} {id : String}
    (hok : getOrCreateId s draw cs h = .ok id) : isValidSlug id = true := by
  by_cases ht : slugTruthy cs = true
  · rw [getOrCreateId_truthy ht] at hok
    by_cases hv : isValidSlug (cs.getD "") = true
    · rw [if_neg (by simp [hv])] at hok
      by_cases hex : idExists s (cs.getD "") = true
      · rw [if_pos hex] at hok
        cases hok
      · rw [if_neg hex] at hok
        have hid : cs.getD "" = id := by
          injection hok
        rw [← hid]
        exact hv
    · rw [Bool.not_eq_true] at hv
      rw [if_pos (by simp [hv])] at hok
      cases hok
  · have hf : slugTruthy cs = false := by simpa using ht
    rw [getOrCreateId_falsy hf] at hok
    have hid : retryAlloc (randomAttempt draw) s (h hf) = id := by
      injection hok
    rw [← hid]
    unfold retryAlloc randomAttempt
    exact isValidSlug_generateId draw _

theorem createPaste_preserves_valid {s : Store} {id content : String}
    {filename language : Option String} {now : Int}
    (hsv : storeValid s = true) (hid : isValidSlug id = true) :
    storeValid (createPaste s id content filename language now).2 = true := by
  rw [createPaste]
  by_cases hex : idExists s id = true
  · rw [if_pos hex]
    exact hsv
  · rw [if_neg hex]
    show storeValid (s ++ [⟨id, content, filename, language, now⟩]) = true
    rw [storeValid, List.all_append]
    rw [storeValid] at hsv
    simp [hsv, hid]

theorem handleDelete_preserves_valid (s : Store) (id : String)
    (hsv : storeValid s = true) :
    storeValid (handleDelete s id).2 = true := by
  rw [storeValid, List.all_eq_true] at hsv ⊢
  intro p hp
  exact hsv p (List.mem_of_mem_filter hp)

theorem createPaste_ok_inv {s : Store} {id content : String}
    {filename language : Option String} {now : Int} {p : Paste} {s2 : Store}
    (hcp : createPaste s id content filename language now = (.ok p, s2)) :
    p = ⟨id, content, filename, language, now⟩ ∧ s2 = s ++ [p] ∧
    idExists s id = false := by
  rw [createPaste] at hcp
  split at hcp
  · exact absurd (congrArg Prod.fst hcp) (by simp)
  · rename_i hex
    have h1 : Except.ok (⟨id, content, filename, language, now⟩ : Paste) =
        Except.ok p := congrArg Prod.fst hcp
    have hp : (⟨id, content, filename, language, now⟩ : Paste) = p := by
      injection h1
    refine ⟨hp.symm, ?_, by simpa using hex⟩
    have h2 : s ++ [(⟨id, content, filename, language, now⟩ : Paste)] = s2 :=
      congrArg Prod.snd hcp
    rw [← h2, hp]

/-- C9: invariant — every stored id matches `^[a-zA-Z0-9_-]{1,64}$`.  Any
id the allocator returns is valid (caller slugs are validated against the
pattern; random candidates are 8 characters over the alphanumeric alphabet,
a subset of the pattern's class); a create with a valid id, the whole
create flow, and deletion all preserve validity of every stored id. -/
theorem c9_stored_ids_valid :
    (∀ (s : Store) (draw : Nat → Fin 58) (cs : Option String) h (id : String),
      getOrCreateId s draw cs h = .ok id → isValidSlug id = true) ∧
    (∀ (s : Store) (id content : String) (filename language : Option String)
      (now : Int), storeValid s = true → isValidSlug id = true →
      storeValid (createPaste s id content filename language now).2 = true) ∧
    (∀ (s : Store) (draw : Nat → Fin 58) (content : String)
      (filename language cs : Option String) (now : Int) h (id : String)
      (s' : Store),
      createFlow s draw content filename language cs now h = (.ok id, s') →
      storeValid s = true → storeValid s' = true) ∧
    (∀ (s : Store) (id : String), storeValid s = true →
      storeValid (handleDelete s id).2 = true) := by
  refine ⟨fun s draw cs h id hok => getOrCreateId_ok_valid hok,
    fun s id c f l t hsv hid => createPaste_preserves_valid hsv hid,
    ?_, fun s id hsv => handleDelete_preserves_valid s id hsv⟩
  intro s draw content filename language cs now h id s' hok hsv
  rw [createFlow] at hok
  split at hok
  · exact absurd (congrArg Prod.fst hok) (by simp)
  · split at hok
    · exact absurd (congrArg Prod.fst hok) (by simp)
    · exact absurd (congrArg Prod.fst hok) (by simp)
    · rename_i id0 heq
      split at hok
      · exact absurd (congrArg Prod.fst hok) (by simp)
      · rename_i p s2 heq2
        obtain ⟨hp, hs2, hex⟩ := createPaste_ok_inv heq2
        have hs' : s2 = s' := by
          injection hok
        have hid0 := getOrCreateId_ok_valid heq
        rw [← hs', hs2, hp]
        rw [storeValid, List.all_append]
        rw [storeValid] at hsv
        simp [hsv, hid0]

/-- C9 witness: a concrete allocation, insert and delete keep every stored
id valid. -/
theorem c9_stored_ids_valid_witness :
    isValidSlug "ok" = true ∧
    storeValid (createPaste ([] : Store) "ok" "c" none none 0).2 = true ∧
    storeValid (handleDelete ([⟨"ok", "c", none, none, 0⟩] : Store) "ok").2 = true :=
  ⟨c9_stored_ids_valid.1 [] (fun _ => (⟨0, by decide⟩ : Fin 58)) (some "ok")
      (vacuousRetry (by decide)) "ok" rfl,
   c9_stored_ids_valid.2.1 [] "ok" "c" none none 0 (by decide) (by decide),
   c9_stored_ids_valid.2.2.2 ([⟨"ok", "c", none, none, 0⟩] : Store) "ok" (by decide)⟩

/-- C10 counterexample: with a paste stored under the id `new`, a GET of
`/new` answers the new-paste form (the earlier route), not a 404. -/
theorem c10_new_route_counterexample :
    handleGet ([⟨"new", "c", none, none, 0⟩] : Store) true "/new" = .newFormPage ∧
    GetResp.newFormPage ≠ GetResp.notFoundHtml :=
  ⟨rfl, by decide⟩

/-- C10 (amended): a GET of `/api` always answers the 404 page regardless
of the store; a GET of `/new` is captured by the earlier new-paste-form
route, so it answers the form when authenticated and 401 otherwise — never
the paste view and never a paste-dependent result.  Both `new` and `api`
are valid slugs the allocator accepts, and a paste stored under either id
stays reachable through the raw endpoint. -/
theorem c10_reserved_ids_routing (s : Store) (authed : Bool) :
    handleGet s authed "/api" = .notFoundHtml ∧
    handleGet s true "/new" = .newFormPage ∧
    handleGet s false "/new" = .unauthorized401 ∧
    (∀ p : Paste, handleGet s authed "/new" ≠ .pasteHtml p) ∧
    isValidSlug "new" = true ∧ isValidSlug "api" = true ∧
    (∀ p, getPaste s "new" = some p →
      handleGet s authed "/new/raw" = .rawText p.content) ∧
    (∀ p, getPaste s "api" = some p →
      handleGet s authed "/api/raw" = .rawText p.content) := by
  refine ⟨rfl, rfl, rfl, ?_, by decide, by decide, ?_, ?_⟩
  · intro p hcon
    cases authed <;> cases hcon
  · intro p hp
    have hform : handleGet s authed "/new/raw" =
        (match getPaste s "new" with
         | none => GetResp.notFoundPlain
         | some q => .rawText q.content) := rfl
    rw [hform, hp]
  · intro p hp
    have hform : handleGet s authed "/api/raw" =
        (match getPaste s "api" with
         | none => GetResp.notFoundPlain
         | some q => .rawText q.content) := rfl
    rw [hform, hp]

/-- C10 witness: the reserved paths on a store holding a paste with id
`new`. -/
theorem c10_reserved_ids_routing_witness :
    handleGet ([⟨"new", "c", none, none, 0⟩] : Store) true "/api" = .notFoundHtml ∧
    handleGet ([⟨"new", "c", none, none, 0⟩] : Store) true "/new/raw" =
      .rawText "c" :=
  ⟨(c10_reserved_ids_routing ([⟨"new", "c", none, none, 0⟩] : Store) true).1,
   (c10_reserved_ids_routing ([⟨"new", "c", none, none, 0⟩] : Store) true).2.2.2.2.2.2.1
     ⟨"new", "c", none, none, 0⟩ (by decide)⟩

end Strings
